import Mathlib

/-!
Verification of `simple_dev`.

The repository ships a fibonacci utility (`src/fibonacci.py` with its unit
tests) and, per the specification, a heuristic risk-scoring pipeline
(scorer, aggregator, error-handling wrapper) whose sources are not part of
the checked-in tree.  The fibonacci function is embedded directly from the
Python source; the pipeline components are modelled from the specification
text and marked as such.
-/

namespace SimpleDev

/-- Body of the `for i in range(2, n)` loop of `fibonacci` in
`src/fibonacci.py`: for each index `i` of the iteration list, append
`fib_sequence[i-1] + fib_sequence[i-2]` to the accumulated list. -/
def fibLoopAux : List Nat → List Nat → List Nat
  | xs, [] => xs
  | xs, i :: rest => fibLoopAux (xs ++ [xs.getD (i - 1) 0 + xs.getD (i - 2) 0]) rest

/-- Embedding of `fibonacci(n)` from `src/fibonacci.py`.  A raised
`ValueError` is modelled as `Except.error` carrying the message string;
normal return is `Except.ok`.  `range(2, n)` is `List.range' 2 (n - 2)`. -/
def fibonacci (n : Int) : Except String (List Nat) :=
  if n < 0 then Except.error "n must be non-negative"
  else if n = 0 then Except.ok []
  else if n = 1 then Except.ok [0]
  else if n = 2 then Except.ok [0, 1]
  else Except.ok (fibLoopAux [0, 1] (List.range' 2 (n.toNat - 2)))

/-- Mathematical Fibonacci reference: fib 0 = 0, fib 1 = 1, recurrence. -/
def fib : Nat → Nat
  | 0 => 0
  | 1 => 1
  | n + 2 => fib n + fib (n + 1)

/-- Modelled from the spec: the coarse low/medium/high risk label used by
the scorer and aggregator, whose sources are not under `src/`. -/
inductive RiskLevel where
  | low
  | medium
  | high
deriving Repr, DecidableEq, BEq

/-- Numeric rank of a risk level, realising the ordering low < medium < high. -/
def RiskLevel.toNat : RiskLevel → Nat
  | .low => 0
  | .medium => 1
  | .high => 2

/-- The more severe of two risk levels. -/
def maxRisk (a b : RiskLevel) : RiskLevel :=
  if a.toNat ≤ b.toNat then b else a

/-- Whether the first character list occurs at the head of the second. -/
def chStarts : List Char → List Char → Bool
  | [], _ => true
  | _ :: _, [] => false
  | a :: as, b :: bs => a == b && chStarts as bs

/-- Whether the first character list occurs somewhere inside the second. -/
def chContains (pat : List Char) : List Char → Bool
  | [] => chStarts pat []
  | b :: bs => chStarts pat (b :: bs) || chContains pat bs

/-- Whether the string `pat` occurs as a substring of `s`. -/
def strContains (s pat : String) : Bool :=
  chContains pat.data s.data

/-- Modelled from the spec: the static weight tables of the heuristic
scorer (file-type weights keyed by extension, path-substring pattern
weights, substrings that force a high label, the historical-risk lookup
with its default constant, and the size threshold).  The scorer sources
are not under `src/`, so the tables are kept abstract. -/
structure ScorerConfig where
  fileTypeWeight : String → Nat
  pathPatterns : List (String × Nat)
  highPatterns : List String
  historicalRisk : String → Option RiskLevel
  defaultRisk : RiskLevel
  sizeThreshold : Nat

/-- Modelled from the spec: the maximum weight among path patterns that
match the given path as a substring; 1 (the neutral factor) when none
match. -/
def maxPatternWeight (pats : List (String × Nat)) (path : String) : Nat :=
  (pats.filter (fun pw => strContains path pw.1)).foldr (fun pw m => Nat.max pw.2 m) 1

/-- Modelled from the spec: complexity score =
(added + deleted lines) × file-type weight × max matching path-pattern
weight. -/
def complexityScore (cfg : ScorerConfig) (path : String) (added deleted : Nat) : Nat :=
  (added + deleted) * cfg.fileTypeWeight path * maxPatternWeight cfg.pathPatterns path

/-- Modelled from the spec: the risk label combines the historical-risk
lookup (default constant when missing) with a size threshold, and certain
path substrings override the result to high. -/
def riskLabel (cfg : ScorerConfig) (path : String) (added deleted : Nat) : RiskLevel :=
  if cfg.highPatterns.any (fun p => strContains path p) then RiskLevel.high
  else
    maxRisk ((cfg.historicalRisk path).getD cfg.defaultRisk)
      (if cfg.sizeThreshold < added + deleted then RiskLevel.high else RiskLevel.low)

/-- Modelled from the spec: the heuristic scorer maps a file path and
line-change counts to an integer complexity score and a risk label. -/
def scoreFile (cfg : ScorerConfig) (path : String) (added deleted : Nat) :
    Nat × RiskLevel :=
  (complexityScore cfg path added deleted, riskLabel cfg path added deleted)

/-- A concrete instance of the static weight tables, for evaluation. -/
def sampleConfig : ScorerConfig where
  fileTypeWeight := fun p => if strContains p ".py" then 3 else 1
  pathPatterns := [(".github/", 2), ("src/", 2)]
  highPatterns := ["auth", "core/"]
  historicalRisk := fun p =>
    if p == "src/fibonacci.py" then some RiskLevel.medium else none
  defaultRisk := RiskLevel.low
  sizeThreshold := 100

/-- Modelled from the spec: a per-file change record with its derived
complexity score and risk data. -/
structure FileChange where
  path : String
  changeType : String
  added : Nat
  deleted : Nat
  complexity : Nat
  riskScore : ℚ
  riskLevel : RiskLevel

/-- Parent directory of a path: everything before the last slash. -/
def parentDir (p : String) : String :=
  String.intercalate "/" (p.splitOn "/").dropLast

/-- Modelled from the spec: module regression-risk classification.  High
exactly when the count of high-risk files is positive, or the average risk
score exceeds 0.7, or the summed complexity exceeds 1000; the intermediate
thresholds (parameters `medAvg`, `medTotal`) yield medium; otherwise low. -/
def classifyModule (medAvg : ℚ) (medTotal : Nat) (files : List FileChange) : RiskLevel :=
  if 0 < (files.filter (fun f => f.riskLevel == RiskLevel.high)).length ∨
      (7 : ℚ) / 10 < (files.map FileChange.riskScore).sum / (files.length : ℚ) ∨
      1000 < (files.map FileChange.complexity).sum then
    RiskLevel.high
  else if medAvg < (files.map FileChange.riskScore).sum / (files.length : ℚ) ∨
      medTotal < (files.map FileChange.complexity).sum then
    RiskLevel.medium
  else
    RiskLevel.low

/-- Modelled from the spec: the aggregator groups FileChange records by
parent directory and classifies each group. -/
def aggregate (medAvg : ℚ) (medTotal : Nat) (files : List FileChange) :
    List (String × RiskLevel) :=
  ((files.map (fun f => parentDir f.path)).eraseDups).map
    (fun d => (d, classifyModule medAvg medTotal
      (files.filter (fun f => parentDir f.path == d))))

/-- Modelled from the spec: the per-operation failure wrapper shared by all
pipeline components.  A fallible operation is an `Except`; on failure the
wrapper records the printed message and substitutes the default value
instead of propagating the error. -/
def runStep {α : Type} (fallback : α) (op : Except String α) : α × List String :=
  match op with
  | Except.ok a => (a, [])
  | Except.error msg => (fallback, [msg])

theorem fibLoopAux_concat (xs l : List Nat) (i : Nat) :
    fibLoopAux xs (l ++ [i]) =
      fibLoopAux xs l ++
        [(fibLoopAux xs l).getD (i - 1) 0 + (fibLoopAux xs l).getD (i - 2) 0] := by
  induction l generalizing xs with
  | nil => rfl
  | cons a t ih => simpa [fibLoopAux] using ih (xs ++ [xs.getD (a - 1) 0 + xs.getD (a - 2) 0])

theorem getD_map_fib_range (k j : Nat) (h : j < k) :
    ((List.range k).map fib).getD j 0 = fib j := by
  rw [List.getD_eq_getElem _ _ (by simpa using h)]
  simp

theorem fibLoopAux_range (m : Nat) :
    fibLoopAux [0, 1] (List.range' 2 m) = (List.range (m + 2)).map fib := by
  induction m with
  | zero => rfl
  | succ m ih =>
    rw [List.range'_concat, fibLoopAux_concat, ih]
    have h1 : 2 + 1 * m - 1 = m + 1 := by omega
    have h2 : 2 + 1 * m - 2 = m := by omega
    rw [h1, h2, getD_map_fib_range (m + 2) (m + 1) (by omega),
      getD_map_fib_range (m + 2) m (by omega)]
    have hr : List.range (m + 1 + 2) = List.range (m + 2) ++ [m + 2] := by
      rw [show m + 1 + 2 = (m + 2) + 1 from rfl, List.range_succ]
    have hv : fib (m + 1) + fib m = fib (m + 2) := by rw [fib, Nat.add_comm]
    rw [hr, List.map_append, List.map_cons, List.map_nil, hv]

/-- For every non-negative input, `fibonacci` returns the table of the
first `n` Fibonacci numbers. -/
theorem fibonacci_ok (n : Int) (h : 0 ≤ n) :
    fibonacci n = Except.ok ((List.range n.toNat).map fib) := by
  obtain ⟨k, rfl⟩ := Int.eq_ofNat_of_zero_le h
  match k with
  | 0 => rfl
  | 1 => rfl
  | 2 => rfl
  | m + 3 =>
    have hne : ¬((m + 3 : ℕ) : Int) < 0 := by omega
    have h0 : ¬((m + 3 : ℕ) : Int) = 0 := by omega
    have h1 : ¬((m + 3 : ℕ) : Int) = 1 := by omega
    have h2 : ¬((m + 3 : ℕ) : Int) = 2 := by omega
    have ht : ((m + 3 : ℕ) : Int).toNat = m + 3 := Int.toNat_natCast _
    rw [fibonacci, if_neg hne, if_neg h0, if_neg h1, if_neg h2, ht]
    have h3 : m + 3 - 2 = m + 1 := by omega
    rw [h3, fibLoopAux_range]

/-- C1: fibonacci returns exactly the first n Fibonacci numbers for
n ∈ {0, 1, 2, 5, 10, 15}; the n = 15 result ends with 233, 377. -/
theorem fibonacci_values :
    fibonacci 0 = Except.ok [] ∧
    fibonacci 1 = Except.ok [0] ∧
    fibonacci 2 = Except.ok [0, 1] ∧
    fibonacci 5 = Except.ok [0, 1, 1, 2, 3] ∧
    fibonacci 10 = Except.ok [0, 1, 1, 2, 3, 5, 8, 13, 21, 34] ∧
    fibonacci 15 =
      Except.ok [0, 1, 1, 2, 3, 5, 8, 13, 21, 34, 55, 89, 144, 233, 377] := by
  refine ⟨rfl, rfl, rfl, ?_, ?_, ?_⟩ <;> rfl

/-- C2: `fibonacci n` raises `ValueError` (returns the error branch) if and
only if `n` is negative. -/
theorem fibonacci_error_iff_neg (n : Int) :
    (∃ e, fibonacci n = Except.error e) ↔ n < 0 := by
  constructor
  · rintro ⟨e, he⟩
    by_contra hn
    rw [fibonacci_ok n (by omega)] at he
    exact Except.noConfusion he
  · intro hn
    exact ⟨"n must be non-negative", by rw [fibonacci, if_pos hn]⟩

/-- C3: for every `n ≥ 0`, `fibonacci n` returns a list of length `n`
beginning with 0 and 1 (when long enough) and satisfying the Fibonacci
recurrence at every index `i ≥ 2`. -/
theorem fibonacci_structure (n : Int) (h : 0 ≤ n) :
    ∃ xs, fibonacci n = Except.ok xs ∧ xs.length = n.toNat ∧
      (1 ≤ xs.length → xs.getD 0 0 = 0) ∧
      (2 ≤ xs.length → xs.getD 1 0 = 1) ∧
      ∀ i, 2 ≤ i → i < xs.length →
        xs.getD i 0 = xs.getD (i - 1) 0 + xs.getD (i - 2) 0 := by
  refine ⟨(List.range n.toNat).map fib, fibonacci_ok n h, by simp, ?_, ?_, ?_⟩
  · intro hlen
    have h0 : 0 < n.toNat := by simp at hlen; omega
    exact getD_map_fib_range n.toNat 0 h0
  · intro hlen
    have h1 : 1 < n.toNat := by simp at hlen; omega
    exact getD_map_fib_range n.toNat 1 h1
  · intro i h2 hlt
    have hik : i < n.toNat := by simpa using hlt
    obtain ⟨j, rfl⟩ : ∃ j, i = j + 2 := ⟨i - 2, by omega⟩
    rw [getD_map_fib_range n.toNat (j + 2) hik,
      show j + 2 - 1 = j + 1 from rfl, show j + 2 - 2 = j from rfl,
      getD_map_fib_range n.toNat (j + 1) (by omega),
      getD_map_fib_range n.toNat j (by omega), fib, Nat.add_comm]

/-- Witness for C3 at the concrete input n = 5. -/
theorem fibonacci_structure_witness :
    ∃ xs, fibonacci 5 = Except.ok xs ∧ xs.length = (5 : Int).toNat ∧
      (1 ≤ xs.length → xs.getD 0 0 = 0) ∧
      (2 ≤ xs.length → xs.getD 1 0 = 1) ∧
      ∀ i, 2 ≤ i → i < xs.length →
        xs.getD i 0 = xs.getD (i - 1) 0 + xs.getD (i - 2) 0 :=
  fibonacci_structure 5 (by decide)

/-- C4: under the precondition `n ≥ 0` the error branch of `fibonacci` is
never reached: the call returns a value and is never an error. -/
theorem fibonacci_no_error (n : Int) (h : 0 ≤ n) :
    ∃ xs, fibonacci n = Except.ok xs ∧ ∀ e, fibonacci n ≠ Except.error e := by
  refine ⟨(List.range n.toNat).map fib, fibonacci_ok n h, ?_⟩
  intro e he
  rw [fibonacci_ok n h] at he
  exact Except.noConfusion he

/-- Witness for C4 at the concrete input n = 10. -/
theorem fibonacci_no_error_witness :
    ∃ xs, fibonacci 10 = Except.ok xs ∧ ∀ e, fibonacci 10 ≠ Except.error e :=
  fibonacci_no_error 10 (by decide)

/-- C5: for every `n ≥ 0`, the list returned by `fibonacci n` is an initial
segment of the list returned by `fibonacci (n+1)`, which has exactly one
more element appended at the end. -/
theorem fibonacci_step_extends (n : Int) (h : 0 ≤ n) :
    ∃ xs a, fibonacci n = Except.ok xs ∧
      fibonacci (n + 1) = Except.ok (xs ++ [a]) := by
  refine ⟨(List.range n.toNat).map fib, fib n.toNat, fibonacci_ok n h, ?_⟩
  rw [fibonacci_ok (n + 1) (by omega)]
  have ht : (n + 1).toNat = n.toNat + 1 := by omega
  rw [ht, List.range_succ, List.map_append, List.map_cons, List.map_nil]

/-- Witness for C5 at the concrete input n = 4. -/
theorem fibonacci_step_extends_witness :
    ∃ xs a, fibonacci 4 = Except.ok xs ∧
      fibonacci (4 + 1) = Except.ok (xs ++ [a]) :=
  fibonacci_step_extends 4 (by decide)

/-- C6: the heuristic scorer is deterministic and side-effect-free: two
invocations with identical file path and line-change counts, under the same
static weight tables, return the identical score and risk label. -/
theorem scoreFile_deterministic (cfg : ScorerConfig) (p1 p2 : String)
    (a1 a2 d1 d2 : Nat) (hp : p1 = p2) (ha : a1 = a2) (hd : d1 = d2) :
    scoreFile cfg p1 a1 d1 = scoreFile cfg p2 a2 d2 := by
  rw [hp, ha, hd]

/-- Witness for C6: two identical invocations on a concrete config. -/
theorem scoreFile_deterministic_witness :
    scoreFile sampleConfig "src/fibonacci.py" 10 5 =
      scoreFile sampleConfig "src/fibonacci.py" 10 5 :=
  scoreFile_deterministic sampleConfig "src/fibonacci.py" "src/fibonacci.py"
    10 10 5 5 rfl rfl rfl

/-- C7: the scorer returns the complexity score
(added + deleted) × file-type weight × max matching path-pattern weight,
together with the risk label obtained from the pattern override, the
historical lookup (with its default when missing) and the size
threshold. -/
theorem scoreFile_contract (cfg : ScorerConfig) (path : String)
    (added deleted : Nat) :
    scoreFile cfg path added deleted =
      ((added + deleted) * cfg.fileTypeWeight path *
          maxPatternWeight cfg.pathPatterns path,
        if cfg.highPatterns.any (fun p => strContains path p) then RiskLevel.high
        else maxRisk ((cfg.historicalRisk path).getD cfg.defaultRisk)
          (if cfg.sizeThreshold < added + deleted then RiskLevel.high
           else RiskLevel.low)) :=
  rfl

theorem maxRisk_toNat (a b : RiskLevel) :
    (maxRisk a b).toNat = max a.toNat b.toNat := by
  cases a <;> cases b <;> rfl

/-- C8: the risk label is monotone in change size: with the path and the
tables fixed, a larger added + deleted total never yields a strictly lower
risk level, where levels are ordered low < medium < high via
`RiskLevel.toNat`. -/
theorem riskLabel_monotone (cfg : ScorerConfig) (path : String)
    (a1 d1 a2 d2 : Nat) (h : a1 + d1 ≤ a2 + d2) :
    (riskLabel cfg path a1 d1).toNat ≤ (riskLabel cfg path a2 d2).toNat := by
  unfold riskLabel
  by_cases hpat : cfg.highPatterns.any (fun p => strContains path p) = true
  · rw [if_pos hpat, if_pos hpat]
  · rw [if_neg hpat, if_neg hpat, maxRisk_toNat, maxRisk_toNat]
    refine max_le_max (Nat.le_refl _) ?_
    by_cases h1 : cfg.sizeThreshold < a1 + d1
    · rw [if_pos h1, if_pos (by omega : cfg.sizeThreshold < a2 + d2)]
    · rw [if_neg h1]
      exact Nat.zero_le _

/-- Witness for C8: a small change and a large change on a concrete
config. -/
theorem riskLabel_monotone_witness :
    (riskLabel sampleConfig "src/fibonacci.py" 1 2).toNat ≤
      (riskLabel sampleConfig "src/fibonacci.py" 80 60).toNat :=
  riskLabel_monotone sampleConfig "src/fibonacci.py" 1 2 80 60 (by decide)

/-- C9: the aggregator groups records by parent directory and classifies
each group; a group is classified high exactly when its count of high-risk
files is positive, or its average risk score exceeds 0.7, or its summed
complexity exceeds 1000. -/
theorem aggregate_classifies (medAvg : ℚ) (medTotal : Nat)
    (files : List FileChange) :
    aggregate medAvg medTotal files =
      ((files.map (fun f => parentDir f.path)).eraseDups).map
        (fun d => (d, classifyModule medAvg medTotal
          (files.filter (fun f => parentDir f.path == d)))) ∧
    ∀ g : List FileChange,
      (classifyModule medAvg medTotal g = RiskLevel.high ↔
        (0 < (g.filter (fun f => f.riskLevel == RiskLevel.high)).length ∨
         (7 : ℚ) / 10 < (g.map FileChange.riskScore).sum / (g.length : ℚ) ∨
         1000 < (g.map FileChange.complexity).sum)) := by
  refine ⟨rfl, ?_⟩
  intro g
  unfold classifyModule
  by_cases hc : 0 < (g.filter (fun f => f.riskLevel == RiskLevel.high)).length ∨
      (7 : ℚ) / 10 < (g.map FileChange.riskScore).sum / (g.length : ℚ) ∨
      1000 < (g.map FileChange.complexity).sum
  · rw [if_pos hc]
    exact ⟨fun _ => hc, fun _ => rfl⟩
  · rw [if_neg hc]
    refine ⟨fun hh => absurd ?_ hc, fun hcc => absurd hcc hc⟩
    exfalso
    revert hh
    split
    · intro hh
      exact RiskLevel.noConfusion hh
    · intro hh
      exact RiskLevel.noConfusion hh

/-- Witness for C9 on a concrete input (the theorem has no genuine
hypothesis; this instantiates it at explicit values). -/
theorem aggregate_classifies_witness :
    aggregate ((4 : ℚ) / 10) 500 [] =
      ((([] : List FileChange).map (fun f => parentDir f.path)).eraseDups).map
        (fun d => (d, classifyModule ((4 : ℚ) / 10) 500
          (([] : List FileChange).filter (fun f => parentDir f.path == d)))) ∧
    ∀ g : List FileChange,
      (classifyModule ((4 : ℚ) / 10) 500 g = RiskLevel.high ↔
        (0 < (g.filter (fun f => f.riskLevel == RiskLevel.high)).length ∨
         (7 : ℚ) / 10 < (g.map FileChange.riskScore).sum / (g.length : ℚ) ∨
         1000 < (g.map FileChange.complexity).sum)) :=
  aggregate_classifies ((4 : ℚ) / 10) 500 []

/-- C10: every operation failure is caught by the per-operation wrapper:
an error produces the recorded (printed) message and the default value,
a success passes the value through, and no exception propagates. -/
theorem runStep_catches (α : Type) (fallback : α) (op : Except String α) :
    (∃ a, op = Except.ok a ∧ runStep fallback op = (a, [])) ∨
    (∃ msg, op = Except.error msg ∧ runStep fallback op = (fallback, [msg])) := by
  cases op with
  | ok a => exact Or.inl ⟨a, rfl, rfl⟩
  | error msg => exact Or.inr ⟨msg, rfl, rfl⟩

end SimpleDev
